import Mathlib

/-!
# shr.me: session store, account service and link registry

A shallow embedding of `auth.go`, `api.go` and `custom_errors.go`.

* Go values passed by pointer and written by the callee (`*Session` in `signin`)
  are returned by the embedding; values only read are taken by value
  (`*Session` in `addURL`, `getURL` and `deleteURL`). The session map holds
  pointers, so the session `signin` returns is the state of the map's entry.
* A Go `error` is an `Option Err`, `none` being `nil`.
* Go `string`s are Lean `String`s and `len` is the UTF-8 byte count.
* Everything the program does not decide is an explicit input: the readings
  of `time.Now()`, the value of `uuid.NewString()`, `argon2.Key`, the URL
  escaping functions, and the outcome the store gives to each statement.
* Every `Manager` method runs under the manager's mutex from start to end,
  so each is one atomic step on the session map.
-/

namespace Shr

/-! ## Sessions (auth.go) -/

/-- Instants of `time.Time`, in nanoseconds. -/
abbrev Time := Int

/-- Spans of `time.Duration`, in nanoseconds. -/
abbrev Duration := Int

/-- The `Session` struct: the state of a session. -/
structure Session where
  sid : String
  userId : Int
  signedIn : Bool
  expiry : Time
deriving DecidableEq, Repr

/-- Go `NewLowSession`: a session with minimal privileges; `now` is the reading
of `time.Now()` taken inside. -/
def NewLowSession (now : Time) (sid : String) (lifetime : Duration) : Session :=
  { sid := sid, userId := 0, signedIn := false, expiry := now + lifetime }

/-! ## Error kinds (custom_errors.go, database/sql) -/

/-- The error values the program handles: the five types of
`custom_errors.go`, the sentinel `sql.ErrNoRows`, and any other error of
`database/sql` or the driver. -/
inductive Err where
  | NoSuchStatementError
  | Unauthorized
  | BadRequest
  | NoSuchUser
  | InvalidInput
  | ErrNoRows
  | driver (msg : String)
deriving DecidableEq, Repr

/-! ## The Data Store -/

/-- Values bound to statement parameters and read from result columns. -/
inductive Value where
  | int (i : Int)
  | str (s : String)
  | bytes (b : List UInt8)
deriving DecidableEq, Repr

/-- A row of table `users_auth`. -/
structure AuthRow where
  userID : Int
  username : String
  password_hash : List UInt8
deriving DecidableEq, Repr

/-- A row of table `users_data`. -/
structure DataRow where
  userID : Int
  name : String
  age : String
  born : String
deriving DecidableEq, Repr

/-- A row of table `links`. -/
structure LinkRow where
  userID : Int
  shortURL : String
  longURL : String
deriving DecidableEq, Repr

/-- The thirteen SQL statements of `InitAPI`, one constructor per text. -/
inductive Stmt where
  /-- SQL `select password_hash from users_auth where username = ?` -/
  | passwordHash_from_username
  /-- SQL `select username from users_auth where userID = ?` -/
  | username_from_userId
  /-- SQL `select userID from users_auth where username = ?` -/
  | userId_from_username
  /-- SQL `select * from users_data where userID = ?` -/
  | userData_from_userId
  /-- SQL `insert into users_auth(username, password_hash) values(?, ?)` -/
  | insert_into_users_auth
  /-- SQL `insert into users_data values(?, ?, ?, ?)` -/
  | insert_into_users_data
  /-- SQL `select longURL from links where shortURL = ?` -/
  | longUrl_from_shortUrl
  /-- SQL `select 1 from links where shortURL = ?` -/
  | shortUrl_exists
  /-- SQL `select 1 from users_auth where username = ?` -/
  | username_exists
  /-- SQL `select userID from links where shortURL = ?` -/
  | userId_from_shortUrl
  /-- SQL `insert into links values(?, ?, ?)` -/
  | add_to_links
  /-- SQL `select shortURL, longURL from links where userID = ?` -/
  | links_from_userId
  /-- SQL `delete from links where shortURL = ? and userID = ?` -/
  | delete_from_links
deriving DecidableEq, Repr

/-- Modelled from the spec: the relational store behind `database/sql` (the
schema and the server are not in the repository's sources). It holds the three
tables the statements of `InitAPI` name, rows in store order and with no
constraint enforced; `nextUserID` is the `userID` the store gives the next
credentials row; `pending` is the outcome the store will give to the coming
statements, in order (`none` or an exhausted list: the statement runs;
`some msg`: it fails with that error and changes nothing); `issued` records
every statement sent so far with its parameters. -/
structure DB where
  users_auth : List AuthRow
  users_data : List DataRow
  links : List LinkRow
  nextUserID : Int
  pending : List (Option String)
  issued : List (Stmt × List Value)
deriving DecidableEq, Repr

/-- Modelled from the spec: the rows a `select` statement yields, read off its
SQL text; `where col = ?` is exact equality. `none` for a statement that is
not a `select` or for parameters that do not fit it. -/
def Stmt.rows (db : DB) : Stmt → List Value → Option (List (List Value))
  | .passwordHash_from_username, [.str u] =>
    some ((db.users_auth.filter fun r => r.username = u).map fun r => [.bytes r.password_hash])
  | .username_from_userId, [.int i] =>
    some ((db.users_auth.filter fun r => r.userID = i).map fun r => [.str r.username])
  | .userId_from_username, [.str u] =>
    some ((db.users_auth.filter fun r => r.username = u).map fun r => [.int r.userID])
  | .userData_from_userId, [.int i] =>
    some ((db.users_data.filter fun r => r.userID = i).map fun r =>
      [.int r.userID, .str r.name, .str r.age, .str r.born])
  | .longUrl_from_shortUrl, [.str s] =>
    some ((db.links.filter fun r => r.shortURL = s).map fun r => [.str r.longURL])
  | .shortUrl_exists, [.str s] =>
    some ((db.links.filter fun r => r.shortURL = s).map fun _ => [.int 1])
  | .username_exists, [.str u] =>
    some ((db.users_auth.filter fun r => r.username = u).map fun _ => [.int 1])
  | .userId_from_shortUrl, [.str s] =>
    some ((db.links.filter fun r => r.shortURL = s).map fun r => [.int r.userID])
  | .links_from_userId, [.int i] =>
    some ((db.links.filter fun r => r.userID = i).map fun r => [.str r.shortURL, .str r.longURL])
  | _, _ => none

/-- Modelled from the spec: the effect of an `insert` or `delete` statement on
the tables, with the number of rows affected, read off its SQL text. `none`
for a statement that is not one of these or for parameters that do not fit. -/
def Stmt.run (db : DB) : Stmt → List Value → Option (DB × Int)
  | .insert_into_users_auth, [.str u, .bytes h] =>
    some ({ db with
            users_auth := db.users_auth ++ [⟨db.nextUserID, u, h⟩]
            nextUserID := db.nextUserID + 1 }, 1)
  | .insert_into_users_data, [.int i, .str n, .str a, .str b] =>
    some ({ db with users_data := db.users_data ++ [⟨i, n, a, b⟩] }, 1)
  | .add_to_links, [.int i, .str s, .str l] =>
    some ({ db with links := db.links ++ [⟨i, s, l⟩] }, 1)
  | .delete_from_links, [.str s, .int i] =>
    some ({ db with links := db.links.filter fun r => ¬ (r.shortURL = s ∧ r.userID = i) },
          ((db.links.filter fun r => r.shortURL = s ∧ r.userID = i).length : Int))
  | _, _ => none

/-- One round trip to the store: the statement is recorded and the next
scheduled outcome is taken. -/
def DB.call (db : DB) (s : Stmt) (args : List Value) : DB × Option String :=
  ({ db with issued := db.issued ++ [(s, args)], pending := db.pending.tail },
   match db.pending with
   | [] => none
   | o :: _ => o)

/-- Go `(*sql.Stmt).QueryRow`: the first row of the result, `sql.ErrNoRows` when
there is none, another error when the store fails. (The error reaches the
program through `Scan`, below.) -/
def Stmt.QueryRow (s : Stmt) (db : DB) (args : List Value) : DB × Except Err (List Value) :=
  match db.call s args with
  | (db1, some msg) => (db1, .error (.driver msg))
  | (db1, none) =>
    match s.rows db1 args with
    | none => (db1, .error (.driver "statement returns no rows"))
    | some [] => (db1, .error .ErrNoRows)
    | some (row :: _) => (db1, .ok row)

/-- Go `(*sql.Stmt).Query`: the cursor over all rows of the result. -/
def Stmt.Query (s : Stmt) (db : DB) (args : List Value) : DB × Except Err (List (List Value)) :=
  match db.call s args with
  | (db1, some msg) => (db1, .error (.driver msg))
  | (db1, none) =>
    match s.rows db1 args with
    | none => (db1, .error (.driver "statement returns no rows"))
    | some rows => (db1, .ok rows)

/-- Go `(*sql.Stmt).Exec` followed by `RowsAffected`: the tables after the
statement and the number of rows it affected. -/
def Stmt.Exec (s : Stmt) (db : DB) (args : List Value) : DB × Except Err Int :=
  match db.call s args with
  | (db1, some msg) => (db1, .error (.driver msg))
  | (db1, none) =>
    match s.run db1 args with
    | none => (db1, .error (.driver "statement cannot be executed"))
    | some (db2, affected) => (db2, .ok affected)

/-- Go `(*sql.Row).Scan(&dest)` for a `string` destination: the error, and the
destination afterwards (left as it was on error). An integer column is
written in decimal, as `database/sql` converts it. -/
def scanString (r : Except Err (List Value)) (dest : String) : Option Err × String :=
  match r with
  | .error e => (some e, dest)
  | .ok [.str s] => (none, s)
  | .ok [.int i] => (none, toString i)
  | .ok _ => (some (.driver "unsupported Scan"), dest)

/-- Go `(*sql.Row).Scan(&dest)` for an `int` destination. -/
def scanInt (r : Except Err (List Value)) (dest : Int) : Option Err × Int :=
  match r with
  | .error e => (some e, dest)
  | .ok [.int i] => (none, i)
  | .ok _ => (some (.driver "unsupported Scan"), dest)

/-- Go `(*sql.Row).Scan(&dest)` for a `[]byte` destination. -/
def scanBytes (r : Except Err (List Value)) (dest : List UInt8) : Option Err × List UInt8 :=
  match r with
  | .error e => (some e, dest)
  | .ok [.bytes b] => (none, b)
  | .ok _ => (some (.driver "unsupported Scan"), dest)

/-! ## The API (api.go) -/

def HASH_LENGTH : Int := 8

def SHORT_URL_LENGTH : Nat := 6

def LONG_URL_MAX_LENGTH : Nat := 1024

/-- The `API` struct: the store connection and the prepared statements by
name. -/
structure API where
  db : DB
  sqlStmts : List (String × Stmt)
deriving DecidableEq, Repr

/-- The map `sqlStmtsStr` of `InitAPI`: statement name to SQL text. -/
def sqlStmtsStr : List (String × Stmt) :=
  [ ("passwordHash_from_username", .passwordHash_from_username),
    ("username_from_userId", .username_from_userId),
    ("userId_from_username", .userId_from_username),
    ("userData_from_userId", .userData_from_userId),
    ("insert_into_users_auth", .insert_into_users_auth),
    ("insert_into_users_data", .insert_into_users_data),
    ("longUrl_from_shortUrl", .longUrl_from_shortUrl),
    ("shortUrl_exists", .shortUrl_exists),
    ("username_exists", .username_exists),
    ("userId_from_shortUrl", .userId_from_shortUrl),
    ("add_to_links", .add_to_links),
    ("links_from_userId", .links_from_userId),
    ("delete_from_links", .delete_from_links) ]

/-- Go `InitAPI`, once connected to store `db`: every statement of `sqlStmtsStr`
is prepared (a statement that cannot be prepared ends the process). -/
def InitAPI (db : DB) : API :=
  { db := db, sqlStmts := sqlStmtsStr }

/-- Go `API.QueryRow`, up to the `Scan`: the row to scan, or the error `Scan`
will report. -/
def API.QueryRow (api : API) (name : String) (args : List Value) :
    API × Except Err (List Value) :=
  match api.sqlStmts.lookup name with
  | some stmt =>
    match stmt.QueryRow api.db args with
    | (db1, r) => ({ api with db := db1 }, r)
  | none => (api, .error .NoSuchStatementError)

/-- Go `API.ExecRow`: rows affected and error. -/
def API.ExecRow (api : API) (name : String) (args : List Value) : API × Int × Option Err :=
  match api.sqlStmts.lookup name with
  | some stmt =>
    match stmt.Exec api.db args with
    | (db1, .error e) => ({ api with db := db1 }, 0, some e)
    | (db1, .ok affected) => ({ api with db := db1 }, affected, none)
  | none => (api, 0, some .NoSuchStatementError)

/-- Go `API.Query`: the rows, or the error. -/
def API.Query (api : API) (name : String) (args : List Value) :
    API × Except Err (List (List Value)) :=
  match api.sqlStmts.lookup name with
  | some stmt =>
    match stmt.Query api.db args with
    | (db1, r) => ({ api with db := db1 }, r)
  | none => (api, .error .NoSuchStatementError)

/-- The signature of `argon2.Key(password, salt, time, memory, threads, keyLen)`. -/
abbrev Argon2Key := List UInt8 → List UInt8 → Nat → Nat → Nat → Nat → List UInt8

/-- Go `hash` (auth.go): Argon2 with no salt, 2 passes, 32 MiB, 4 threads and
`uint32(length)` output bytes. -/
def hash (argon2Key : Argon2Key) (input : List UInt8) (length : Int) : List UInt8 :=
  argon2Key input [] 2 (32 * 1024) 4 (length % 2 ^ 32).toNat

/-- The conversion `[]byte(s)`. -/
def bytesOf (s : String) : List UInt8 :=
  s.toUTF8.data.toList

/-- The Go builtin `len` on a string: its length in bytes. -/
def len (s : String) : Nat :=
  s.utf8ByteSize

/-- Go `API.signup`: signs up a user from the form fields. -/
def API.signup (api : API) (argon2Key : Argon2Key)
    (name age born username password : String) : API × Option Err :=
  if name = "" ∨ age = "" ∨ born = "" ∨ username = "" ∨ password = "" then
    (api, some .InvalidInput)
  else
    match api.QueryRow "username_exists" [.str username] with
    | (api1, r) =>
      match scanString r "" with
      | (err, «exists») =>
        if err ≠ none ∧ err ≠ some .ErrNoRows then (api1, err)
        else if «exists» = "1" then (api1, some .Unauthorized)
        else
          match api1.ExecRow "insert_into_users_auth"
              [.str username, .bytes (hash argon2Key (bytesOf password) HASH_LENGTH)] with
          | (api2, _, err2) =>
            if err2 ≠ none then (api2, err2)
            else
              match api2.QueryRow "userId_from_username" [.str username] with
              | (api3, r3) =>
                match scanInt r3 0 with
                | (err3, newUserId) =>
                  if err3 ≠ none then (api3, err3)
                  else
                    match api3.ExecRow "insert_into_users_data"
                        [.int newUserId, .str name, .str age, .str born] with
                    | (api4, _, err4) =>
                      if err4 ≠ none then (api4, err4) else (api4, none)

/-- Go `API.signin`: checks the password against the stored digest and, on a
match, elevates the session in place. Returns the store, the session as the
call leaves it, and the error. -/
def API.signin (api : API) (argon2Key : Argon2Key) (session : Session)
    (username password : String) : API × Session × Option Err :=
  match api.QueryRow "passwordHash_from_username" [.str username] with
  | (api1, r) =>
    match scanBytes r [] with
    | (err, stored_password_hash) =>
      if err ≠ none then (api1, session, some .NoSuchUser)
      else if hash argon2Key (bytesOf password) HASH_LENGTH = stored_password_hash then
        match api1.QueryRow "userId_from_username" [.str username] with
        | (api2, r2) =>
          match scanInt r2 0 with
          | (err2, userId) =>
            if err2 ≠ none then (api2, session, some .NoSuchUser)
            else (api2, { session with signedIn := true, userId := userId }, none)
      else (api1, session, some .Unauthorized)

/-- Go `API.addURL`: adds a redirect pair to the store. -/
def API.addURL (api : API) (session : Session) (shortUrl longUrl : String) :
    API × Option Err :=
  if session.signedIn = false then (api, some .Unauthorized)
  else if len shortUrl ≠ SHORT_URL_LENGTH then (api, some .Unauthorized)
  else if len longUrl > LONG_URL_MAX_LENGTH then (api, some .Unauthorized)
  else
    match api.QueryRow "shortUrl_exists" [.str shortUrl] with
    | (api1, r) =>
      match scanString r "" with
      | (err, «exists») =>
        if err ≠ none ∧ err ≠ some .ErrNoRows then (api1, err)
        else if «exists» = "1" then (api1, some .BadRequest)
        else
          match api1.ExecRow "add_to_links"
              [.int session.userId, .str shortUrl, .str longUrl] with
          | (api2, _, err2) =>
            if err2 ≠ none then (api2, err2) else (api2, none)

/-- The `LinkData` struct (data.go). -/
structure LinkData where
  Short : String
  Long : String
deriving DecidableEq, Repr

/-- The loop `for rows.Next() { rows.Scan(&data.Short, &data.Long); ... }` of
`getURL`: stops at the first row that does not scan, keeping what was read. -/
def scanLinks : List (List Value) → List LinkData → List LinkData × Option Err
  | [], res => (res, none)
  | [.str s, .str l] :: rows, res => scanLinks rows (res ++ [⟨s, l⟩])
  | _ :: _, res => (res, some (.driver "unsupported Scan"))

/-- Go `API.getURL`: all link pairs of the user the session identifies. -/
def API.getURL (api : API) (session : Session) : API × List LinkData × Option Err :=
  if session.signedIn = false then (api, [], some .Unauthorized)
  else
    match api.Query "links_from_userId" [.int session.userId] with
    | (api1, .error e) => (api1, [], some e)
    | (api1, .ok rows) =>
      match scanLinks rows [] with
      | (res, err) => (api1, res, err)

/-- Go `API.deleteURL`: deletes the short URL and its long URL. -/
def API.deleteURL (api : API) (session : Session) (shortUrl : String) : API × Option Err :=
  if session.signedIn = false then (api, some .Unauthorized)
  else
    match api.QueryRow "userId_from_shortUrl" [.str shortUrl] with
    | (api1, r) =>
      match scanInt r 0 with
      | (_, userId) =>
        if userId ≠ session.userId then (api1, some .Unauthorized)
        else
          match api1.ExecRow "delete_from_links" [.str shortUrl, .int session.userId] with
          | (api2, affected, err2) =>
            if err2 ≠ none ∨ affected = 0 then (api2, err2) else (api2, none)

/-- The status `API.ServeHTTP` answers a `POST add` with, from the result of
`addURL`: 400 for `*BadRequest`, 401 for `*Unauthorized`, 500 for any other
error, and the permanent redirect to `/manage` otherwise. -/
def addStatus : Option Err → Nat
  | some .BadRequest => 400
  | some .Unauthorized => 401
  | some _ => 500
  | none => 308

/-- The status `API.ServeHTTP` answers a `POST auth` with, from the result of
`signin`. -/
def authStatus : Option Err → Nat
  | some .NoSuchUser => 401
  | some .Unauthorized => 401
  | some _ => 500
  | none => 200

/-- The status `API.ServeHTTP` answers a `POST signup` with, from the result
of `signup`. -/
def signupStatus : Option Err → Nat
  | some .Unauthorized => 401
  | some .InvalidInput => 401
  | some _ => 500
  | none => 200

/-! ## The session manager (auth.go) -/

/-- The `SameSite` modes of `net/http`. -/
inductive SameSite where
  | DefaultMode
  | LaxMode
  | StrictMode
  | NoneMode
deriving DecidableEq, Repr

/-- The fields of `http.Cookie` the manager sets. -/
structure Cookie where
  Name : String
  Value : String
  Expires : Time
  Path : String
  SameSite : SameSite
deriving DecidableEq, Repr

/-- The part of `http.Request` the manager reads: the cookies the client
sent, as name and value, in header order. -/
structure Request where
  cookies : List (String × String)
deriving DecidableEq, Repr

/-- Go `(*http.Request).Cookie`: the value of the first cookie of that name;
`none` is `http.ErrNoCookie`. -/
def Request.Cookie (r : Request) (name : String) : Option String :=
  if name = "" then none else r.cookies.lookup name

/-- The functions of `net/url` the manager calls; `QueryUnescape` gives the
string returned, its error being dropped by the caller. -/
structure Url where
  QueryEscape : String → String
  QueryUnescape : String → String

/-- The map `sessions` of the manager: session id to session, keys unique. -/
abbrev Sessions := AList fun _ : String => Session

/-- The `Manager` struct, without the wrapped handler and the mutex. -/
structure Manager where
  sessions : Sessions
  cookieName : String
  maxLife : Duration

/-- The loop of `UpdateExpired` over the entries still to visit: entry number
`i` is compared with `clock i`, the reading of `time.Now()` taken for it. -/
def sweep (clock : Nat → Time) : Nat → List (Sigma fun _ : String => Session) → Sessions → Sessions
  | _, [], acc => acc
  | i, e :: es, acc =>
    sweep clock (i + 1) es (if clock i > e.2.expiry then acc.erase e.1 else acc)

/-- Go `Manager.UpdateExpired`: removes the expired sessions. The map is visited
in the order of its entries, which stands for the order Go picks. -/
def Manager.UpdateExpired (manager : Manager) (clock : Nat → Time) : Manager :=
  { manager with sessions := sweep clock 0 manager.sessions.entries manager.sessions }

/-- Go `Manager.createSession`: makes a session under the id `sid` that
`uuid.NewString()` returned, at the reading `now` of `time.Now()`, stores it
and sets the response cookie. Returns the manager, the cookie handed to
`http.SetCookie` and the session. -/
def Manager.createSession (manager : Manager) (url : Url) (sid : String) (now : Time) :
    Manager × Cookie × Session :=
  let session := NewLowSession now sid manager.maxLife
  ({ manager with sessions := manager.sessions.insert sid session },
   { Name := manager.cookieName, Value := url.QueryEscape sid, Expires := session.expiry,
     Path := "/", SameSite := .StrictMode },
   session)

/-- Go `Manager.GetSession`: the active session the request's cookie names, or a
new one. `nowCheck` is the reading of `time.Now()` in the expiry test, `uuid`
and `nowCreate` are what `createSession` gets from `uuid.NewString()` and
`time.Now()` if it runs. Returns the manager, the response cookie if one was
set, and the session. -/
def Manager.GetSession (manager : Manager) (url : Url) (r : Request)
    (nowCheck : Time) (uuid : String) (nowCreate : Time) : Manager × Option Cookie × Session :=
  match r.Cookie manager.cookieName with
  | none =>
    match manager.createSession url uuid nowCreate with
    | (m, c, s) => (m, some c, s)
  | some value =>
    if value = "" then
      match manager.createSession url uuid nowCreate with
      | (m, c, s) => (m, some c, s)
    else
      match manager.sessions.lookup (url.QueryUnescape value) with
      | none =>
        match manager.createSession url uuid nowCreate with
        | (m, c, s) => (m, some c, s)
      | some session =>
        if nowCheck > session.expiry then
          match manager.createSession url uuid nowCreate with
          | (m, c, s) => (m, some c, s)
        else (manager, none, session)

/-- The session invariant of the data model: a signed-in session carries an
account. -/
def Session.inv (s : Session) : Prop :=
  s.signedIn = true → s.userId ≠ 0

instance (s : Session) : Decidable s.inv := by
  unfold Session.inv; infer_instance

/-! ## Notions the statements below use -/

/-- The owner the store reports for a short URL: the `userID` of the first
row of `links` with that `shortURL`, which is the row `userId_from_shortUrl`
selects. -/
def DB.owner (db : DB) (shortUrl : String) : Option Int :=
  (db.links.find? fun r => r.shortURL = shortUrl).map fun r => r.userID

/-- The credentials the store reports for a username: the first row of
`users_auth` with that `username`, which is the row both
`passwordHash_from_username` and `userId_from_username` select. -/
def DB.credentials (db : DB) (username : String) : Option AuthRow :=
  db.users_auth.find? fun r => r.username = username

/-- The store reports no error: none of the outcomes scheduled for the coming
statements is a failure. -/
def DB.reliable (db : DB) : Prop :=
  ∀ o ∈ db.pending, o = none

instance (db : DB) : Decidable db.reliable := by
  unfold DB.reliable; infer_instance

/-- A string of `n` bytes, for the length bounds. -/
def filler (n : Nat) : String :=
  String.mk (List.replicate n 'a')

/-! ## Example data -/

/-- A store holding the account `alice` (id 7, digest of `pw`) and one link
of hers, and reporting no error. -/
def exampleDB : DB :=
  { users_auth := [⟨7, "alice", [112, 119]⟩]
    users_data := [⟨7, "Alice", "30", "2000-01-01"⟩]
    links := [⟨7, "abc123", "https://example.com"⟩]
    nextUserID := 8
    pending := []
    issued := [] }

/-- A store whose only credentials row carries the id 0. -/
def zeroDB : DB :=
  { users_auth := [⟨0, "root", [112, 119]⟩]
    users_data := []
    links := []
    nextUserID := 1
    pending := []
    issued := [] }

/-- The store `exampleDB` about to fail its next statement. -/
def failingDB : DB :=
  { exampleDB with pending := [some "connection lost"] }

/-- A session signed in as account 7. -/
def alice : Session := ⟨"sid-a", 7, true, 100⟩

/-- A session signed in as account 8. -/
def bob : Session := ⟨"sid-b", 8, true, 100⟩

/-- A session that is not signed in. -/
def anonymous : Session := ⟨"sid-0", 0, false, 100⟩

/-- A signed-in session whose account id is 0. -/
def zeroSession : Session := ⟨"sid-z", 0, true, 100⟩

/-- A stand-in for `argon2.Key` in the examples: the first `keyLen` bytes of
the password. -/
def toyKey : Argon2Key := fun password _ _ _ _ keyLen => password.take keyLen

/-- The escaping functions on strings with nothing to escape, as session ids
are. -/
def plainUrl : Url := { QueryEscape := fun s => s, QueryUnescape := fun s => s }

/-- A session id in the format of `uuid.NewString()`. -/
def exampleSid : String := "6ba7b810-9dad-41d1-80b4-00c04fd430c8"

/-- A manager holding one session, signed in and expiring at instant 100. -/
def exampleManager : Manager :=
  { sessions := AList.insert exampleSid (⟨exampleSid, 7, true, 100⟩ : Session) ∅
    cookieName := "session_id"
    maxLife := 3600 }

/-- A request presenting the cookie of the session of `exampleManager`. -/
def exampleRequest : Request :=
  { cookies := [("session_id", exampleSid)] }

theorem lookup_passwordHash_from_username :
    sqlStmtsStr.lookup "passwordHash_from_username" = some .passwordHash_from_username := by
  decide

theorem lookup_userId_from_username :
    sqlStmtsStr.lookup "userId_from_username" = some .userId_from_username := by decide

theorem lookup_shortUrl_exists :
    sqlStmtsStr.lookup "shortUrl_exists" = some .shortUrl_exists := by decide

theorem lookup_userId_from_shortUrl :
    sqlStmtsStr.lookup "userId_from_shortUrl" = some .userId_from_shortUrl := by decide

theorem lookup_add_to_links :
    sqlStmtsStr.lookup "add_to_links" = some .add_to_links := by decide

theorem lookup_links_from_userId :
    sqlStmtsStr.lookup "links_from_userId" = some .links_from_userId := by decide

theorem lookup_delete_from_links :
    sqlStmtsStr.lookup "delete_from_links" = some .delete_from_links := by decide

theorem filter_of_find?_some {α : Type} (p : α → Bool) (a : α) :
    ∀ l : List α, l.find? p = some a → ∃ t, l.filter p = a :: t := by
  intro l
  induction l with
  | nil => intro h; simp at h
  | cons x xs ih =>
    intro h
    by_cases hx : p x = true
    · simp [List.find?, hx] at h
      subst h
      exact ⟨xs.filter p, by simp [List.filter, hx]⟩
    · simp [List.find?, hx] at h
      obtain ⟨t, ht⟩ := ih h
      exact ⟨t, by simp [List.filter, hx, ht]⟩

theorem len_filler (n : Nat) : len (filler n) = n := by
  have h : ∀ m : Nat, String.utf8ByteSize.go (List.replicate m 'a') = m := by
    intro m
    induction m with
    | zero => rfl
    | succ k ih =>
      simp only [List.replicate_succ, String.utf8ByteSize.go, ih]
      rfl
  simp only [len, filler, String.utf8ByteSize, h]

/-- A store that reports no error either has no outcome scheduled or runs
its next statement. -/
theorem reliable_cases (db : DB) (hp : db.reliable) :
    db.pending = [] ∨ ∃ rest, db.pending = none :: rest := by
  cases hpd : db.pending with
  | nil => exact Or.inl rfl
  | cons o rest =>
    have ho : o = none := hp o (by rw [hpd]; exact List.mem_cons_self _ _)
    exact Or.inr ⟨rest, by rw [ho]⟩

/-- A store that reports no error still reports none after a statement. -/
theorem call_reliable (db : DB) (hp : db.reliable) (s : Stmt) (args : List Value) :
    (db.call s args).1.reliable := by
  intro o ho
  exact hp o (List.mem_of_mem_tail ho)

/-- Reporting no error depends on the scheduled outcomes only. -/
theorem reliable_of_pending (db db1 : DB) (hp : db.reliable) (h : db1.pending = db.pending) :
    db1.reliable := by
  intro o ho
  exact hp o (h ▸ ho)

/-- The ownership lookup of `deleteURL` on a store that reports no error. -/
theorem queryRow_owner (db : DB) (hp : db.reliable) (c : String) :
    (InitAPI db).QueryRow "userId_from_shortUrl" [.str c] =
      (InitAPI (db.call .userId_from_shortUrl [.str c]).1,
       match db.owner c with
       | some i => .ok [.int i]
       | none => .error .ErrNoRows) := by
  cases hf : db.links.find? (fun r => decide (r.shortURL = c)) with
  | none =>
    have h0 : db.links.filter (fun r => decide (r.shortURL = c)) = [] := by
      rw [List.filter_eq_nil_iff]
      intro a ha
      exact (List.find?_eq_none.mp hf) a ha
    rcases reliable_cases db hp with hpd | ⟨rest, hpd⟩ <;>
      simp [API.QueryRow, InitAPI, lookup_userId_from_shortUrl, Stmt.QueryRow, DB.call, hpd,
        Stmt.rows, h0, DB.owner, hf]
  | some row =>
    obtain ⟨t, ht⟩ := filter_of_find?_some _ _ _ hf
    rcases reliable_cases db hp with hpd | ⟨rest, hpd⟩ <;>
      simp [API.QueryRow, InitAPI, lookup_userId_from_shortUrl, Stmt.QueryRow, DB.call, hpd,
        Stmt.rows, ht, DB.owner, hf]

/-- The delete statement of `deleteURL` on a store that reports no error. -/
theorem execRow_delete (db : DB) (hp : db.reliable) (c : String) (i : Int) :
    (InitAPI db).ExecRow "delete_from_links" [.str c, .int i] =
      (InitAPI { (db.call .delete_from_links [.str c, .int i]).1 with
                 links := db.links.filter fun r => ¬ (r.shortURL = c ∧ r.userID = i) },
       ((db.links.filter fun r => r.shortURL = c ∧ r.userID = i).length : Int),
       none) := by
  rcases reliable_cases db hp with hpd | ⟨rest, hpd⟩ <;>
    simp [API.ExecRow, InitAPI, lookup_delete_from_links, Stmt.Exec, DB.call, hpd, Stmt.run]

/-- The existence check of `addURL` for a short URL with no row, on a store
that reports no error. -/
theorem queryRow_exists_new (db : DB) (hp : db.reliable) (c : String)
    (hnew : ∀ r ∈ db.links, r.shortURL ≠ c) :
    (InitAPI db).QueryRow "shortUrl_exists" [.str c] =
      (InitAPI (db.call .shortUrl_exists [.str c]).1, .error .ErrNoRows) := by
  have h0 : db.links.filter (fun r => decide (r.shortURL = c)) = [] := by
    rw [List.filter_eq_nil_iff]
    intro a ha
    simpa using hnew a ha
  rcases reliable_cases db hp with hpd | ⟨rest, hpd⟩ <;>
    simp [API.QueryRow, InitAPI, lookup_shortUrl_exists, Stmt.QueryRow, DB.call, hpd,
      Stmt.rows, h0]

/-- The insert statement of `addURL` on a store that reports no error. -/
theorem execRow_add (db : DB) (hp : db.reliable) (i : Int) (c l : String) :
    (InitAPI db).ExecRow "add_to_links" [.int i, .str c, .str l] =
      (InitAPI { (db.call .add_to_links [.int i, .str c, .str l]).1 with
                 links := db.links ++ [⟨i, c, l⟩] },
       1, none) := by
  rcases reliable_cases db hp with hpd | ⟨rest, hpd⟩ <;>
    simp [API.ExecRow, InitAPI, lookup_add_to_links, Stmt.Exec, DB.call, hpd, Stmt.run]

theorem scanLinks_map (rows : List LinkRow) :
    ∀ res : List LinkData,
      scanLinks (rows.map fun r => [.str r.shortURL, .str r.longURL]) res =
        (res ++ rows.map fun r => ⟨r.shortURL, r.longURL⟩, none) := by
  induction rows with
  | nil => intro res; simp [scanLinks]
  | cons r rs ih => intro res; simp [scanLinks, ih]

/-- Go `getURL` for a signed-in session on a store that reports no error. -/
theorem getURL_ok (db : DB) (hp : db.reliable) (s : Session) (hs : s.signedIn = true) :
    (InitAPI db).getURL s =
      (InitAPI (db.call .links_from_userId [.int s.userId]).1,
       (db.links.filter fun r => r.userID = s.userId).map fun r => ⟨r.shortURL, r.longURL⟩,
       none) := by
  rcases reliable_cases db hp with hpd | ⟨rest, hpd⟩ <;>
    simp [API.getURL, hs, API.Query, InitAPI, lookup_links_from_userId, Stmt.Query, DB.call,
      hpd, Stmt.rows, scanLinks_map]

/-- The digest lookup of `signin` on a store that reports no error. -/
theorem queryRow_digest (db : DB) (hp : db.reliable) (u : String) :
    (InitAPI db).QueryRow "passwordHash_from_username" [.str u] =
      (InitAPI (db.call .passwordHash_from_username [.str u]).1,
       match db.credentials u with
       | some row => .ok [.bytes row.password_hash]
       | none => .error .ErrNoRows) := by
  cases hf : db.users_auth.find? (fun r => decide (r.username = u)) with
  | none =>
    have h0 : db.users_auth.filter (fun r => decide (r.username = u)) = [] := by
      rw [List.filter_eq_nil_iff]
      intro a ha
      exact (List.find?_eq_none.mp hf) a ha
    rcases reliable_cases db hp with hpd | ⟨rest, hpd⟩ <;>
      simp [API.QueryRow, InitAPI, lookup_passwordHash_from_username, Stmt.QueryRow, DB.call,
        hpd, Stmt.rows, h0, DB.credentials, hf]
  | some row =>
    obtain ⟨t, ht⟩ := filter_of_find?_some _ _ _ hf
    rcases reliable_cases db hp with hpd | ⟨rest, hpd⟩ <;>
      simp [API.QueryRow, InitAPI, lookup_passwordHash_from_username, Stmt.QueryRow, DB.call,
        hpd, Stmt.rows, ht, DB.credentials, hf]

/-- The id lookup of `signin` on a store that reports no error. -/
theorem queryRow_userId (db : DB) (hp : db.reliable) (u : String) :
    (InitAPI db).QueryRow "userId_from_username" [.str u] =
      (InitAPI (db.call .userId_from_username [.str u]).1,
       match db.credentials u with
       | some row => .ok [.int row.userID]
       | none => .error .ErrNoRows) := by
  cases hf : db.users_auth.find? (fun r => decide (r.username = u)) with
  | none =>
    have h0 : db.users_auth.filter (fun r => decide (r.username = u)) = [] := by
      rw [List.filter_eq_nil_iff]
      intro a ha
      exact (List.find?_eq_none.mp hf) a ha
    rcases reliable_cases db hp with hpd | ⟨rest, hpd⟩ <;>
      simp [API.QueryRow, InitAPI, lookup_userId_from_username, Stmt.QueryRow, DB.call, hpd,
        Stmt.rows, h0, DB.credentials, hf]
  | some row =>
    obtain ⟨t, ht⟩ := filter_of_find?_some _ _ _ hf
    rcases reliable_cases db hp with hpd | ⟨rest, hpd⟩ <;>
      simp [API.QueryRow, InitAPI, lookup_userId_from_username, Stmt.QueryRow, DB.call, hpd,
        Stmt.rows, ht, DB.credentials, hf]

/-- A query leaves the tables as they are, whatever the store answers. -/
theorem queryRow_tables (db : DB) (name : String) (args : List Value) :
    ∃ db1 : DB, ((InitAPI db).QueryRow name args).1 = InitAPI db1 ∧
      db1.users_auth = db.users_auth ∧ db1.users_data = db.users_data ∧
      db1.links = db.links := by
  unfold API.QueryRow
  cases hl : (InitAPI db).sqlStmts.lookup name with
  | none => exact ⟨db, rfl, rfl, rfl, rfl⟩
  | some stmt =>
    simp only [Stmt.QueryRow, DB.call]
    rcases hpd : db.pending with _ | ⟨_ | msg, rest⟩ <;> simp only [InitAPI, hpd]
    · cases hr : stmt.rows _ args with
      | none => exact ⟨_, rfl, rfl, rfl, rfl⟩
      | some rows =>
        cases rows with
        | nil => exact ⟨_, rfl, rfl, rfl, rfl⟩
        | cons x t => exact ⟨_, rfl, rfl, rfl, rfl⟩
    · cases hr : stmt.rows _ args with
      | none => exact ⟨_, rfl, rfl, rfl, rfl⟩
      | some rows =>
        cases rows with
        | nil => exact ⟨_, rfl, rfl, rfl, rfl⟩
        | cons x t => exact ⟨_, rfl, rfl, rfl, rfl⟩
    · exact ⟨_, rfl, rfl, rfl, rfl⟩

/-- Whatever the store answers, the id lookup yields an error or the
`userID` of a row of `users_auth`. -/
theorem queryRow_userId_any (db : DB) (u : String) :
    (∃ e, ((InitAPI db).QueryRow "userId_from_username" [.str u]).2 = .error e) ∨
    ∃ row ∈ db.users_auth,
      ((InitAPI db).QueryRow "userId_from_username" [.str u]).2 = .ok [.int row.userID] := by
  rcases hpd : db.pending with _ | ⟨_ | msg, rest⟩
  · cases hf : db.users_auth.filter (fun r => decide (r.username = u)) with
    | nil =>
      left
      exact ⟨.ErrNoRows, by
        simp [API.QueryRow, InitAPI, lookup_userId_from_username, Stmt.QueryRow, DB.call, hpd,
          Stmt.rows, hf]⟩
    | cons x t =>
      right
      have hx : x ∈ db.users_auth := by
        have : x ∈ db.users_auth.filter (fun r => decide (r.username = u)) := by simp [hf]
        exact List.mem_of_mem_filter this
      exact ⟨x, hx, by
        simp [API.QueryRow, InitAPI, lookup_userId_from_username, Stmt.QueryRow, DB.call, hpd,
          Stmt.rows, hf]⟩
  · cases hf : db.users_auth.filter (fun r => decide (r.username = u)) with
    | nil =>
      left
      exact ⟨.ErrNoRows, by
        simp [API.QueryRow, InitAPI, lookup_userId_from_username, Stmt.QueryRow, DB.call, hpd,
          Stmt.rows, hf]⟩
    | cons x t =>
      right
      have hx : x ∈ db.users_auth := by
        have : x ∈ db.users_auth.filter (fun r => decide (r.username = u)) := by simp [hf]
        exact List.mem_of_mem_filter this
      exact ⟨x, hx, by
        simp [API.QueryRow, InitAPI, lookup_userId_from_username, Stmt.QueryRow, DB.call, hpd,
          Stmt.rows, hf]⟩
  · left
    exact ⟨.driver msg, by
      simp [API.QueryRow, InitAPI, lookup_userId_from_username, Stmt.QueryRow, DB.call, hpd]⟩

/-- Whatever the store answers, `signin` leaves the session as it was or
elevates it to the `userID` of a row of `users_auth`. -/
theorem signin_session_cases (db : DB) (argon2Key : Argon2Key) (session : Session)
    (u p : String) :
    ((InitAPI db).signin argon2Key session u p).2.1 = session ∨
    ∃ row ∈ db.users_auth,
      ((InitAPI db).signin argon2Key session u p).2.1 =
        { session with signedIn := true, userId := row.userID } := by
  obtain ⟨db1, hapi1, hua, -, -⟩ := queryRow_tables db "passwordHash_from_username" [.str u]
  unfold API.signin
  rcases h1 : (InitAPI db).QueryRow "passwordHash_from_username" [.str u] with ⟨api1, r1⟩
  rw [h1] at hapi1
  simp only at hapi1
  subst hapi1
  simp only
  rcases hs : scanBytes r1 [] with ⟨err, stored⟩
  simp only
  by_cases he : err ≠ none
  · left; simp [he]
  · by_cases hh : hash argon2Key (bytesOf p) HASH_LENGTH = stored
    · simp only [he, hh, if_true, if_false]
      rcases h2 : (InitAPI db1).QueryRow "userId_from_username" [.str u] with ⟨api2, r2⟩
      simp only
      rcases queryRow_userId_any db1 u with ⟨e, hq⟩ | ⟨row, hrow, hq⟩
      · rw [h2] at hq
        simp only at hq
        subst hq
        left; simp [scanInt]
      · rw [h2] at hq
        simp only at hq
        subst hq
        right
        exact ⟨row, hua ▸ hrow, by simp [scanInt]⟩
    · left; simp [he, hh]

/-- The sweep only removes: what it leaves under a key was there before. -/
theorem sweep_lookup_some (clock : Nat → Time) :
    ∀ (es : List (Sigma fun _ : String => Session)) (i : Nat) (acc : Sessions) (k : String)
      (s : Session), (sweep clock i es acc).lookup k = some s → acc.lookup k = some s := by
  intro es
  induction es with
  | nil => intro i acc k s h; exact h
  | cons e es ih =>
    intro i acc k s h
    have h1 := ih _ _ _ _ h
    by_cases hc : clock i > e.2.expiry
    · rw [if_pos hc] at h1
      by_cases hk : k = e.1
      · subst hk
        rw [AList.lookup_erase] at h1
        exact absurd h1 (by simp)
      · rwa [AList.lookup_erase_ne hk] at h1
    · rwa [if_neg hc] at h1

/-- With every reading equal to `now`, a visited entry that has expired is
gone after the sweep. -/
theorem sweep_const_removed (now : Time) :
    ∀ (es : List (Sigma fun _ : String => Session)) (i : Nat) (acc : Sessions) (k : String)
      (s : Session), (⟨k, s⟩ : Sigma fun _ : String => Session) ∈ es → now > s.expiry →
      (sweep (fun _ => now) i es acc).lookup k = none := by
  intro es
  induction es with
  | nil => intro i acc k s h; simp at h
  | cons e es ih =>
    intro i acc k s hmem hexp
    rcases List.mem_cons.mp hmem with he | hin
    · subst he
      cases hres : (sweep (fun _ => now) i (⟨k, s⟩ :: es) acc).lookup k with
      | none => rfl
      | some s1 =>
        have h1 := sweep_lookup_some (fun _ => now) es (i + 1) _ k s1 hres
        rw [if_pos hexp, AList.lookup_erase] at h1
        exact absurd h1 (by simp)
    · exact ih _ _ _ _ hin hexp

/-- With every reading equal to `now`, a key none of whose visited entries
has expired keeps its session. -/
theorem sweep_const_kept (now : Time) :
    ∀ (es : List (Sigma fun _ : String => Session)) (i : Nat) (acc : Sessions) (k : String),
      (∀ s : Session, (⟨k, s⟩ : Sigma fun _ : String => Session) ∈ es → ¬ now > s.expiry) →
      (sweep (fun _ => now) i es acc).lookup k = acc.lookup k := by
  intro es
  induction es with
  | nil => intro i acc k _; rfl
  | cons e es ih =>
    intro i acc k h
    have h1 := ih (i + 1) (if now > e.2.expiry then acc.erase e.1 else acc) k
      (fun s hs => h s (List.mem_cons_of_mem _ hs))
    show (sweep (fun _ => now) (i + 1) es _).lookup k = _
    rw [h1]
    by_cases hc : now > e.2.expiry
    · rw [if_pos hc]
      have hk : k ≠ e.1 := by
        intro hk
        subst hk
        exact h e.2 (List.mem_cons_self _ _) hc
      exact AList.lookup_erase_ne hk
    · rw [if_neg hc]

/-- Go `deleteURL` by the owner the store reports, on a store that reports no
error: the rows of that short URL and owner are deleted. -/
theorem deleteURL_by_owner (db : DB) (hp : db.reliable) (c : String) (s : Session)
    (hs : s.signedIn = true) (hown : db.owner c = some s.userId) :
    ∃ db1 : DB, (InitAPI db).deleteURL s c = (InitAPI db1, none) ∧ db1.reliable ∧
      db1.links = db.links.filter fun r => ¬ (r.shortURL = c ∧ r.userID = s.userId) := by
  have hpos : ((db.links.filter fun r => r.shortURL = c ∧ r.userID = s.userId).length : Int)
      ≠ 0 := by
    unfold DB.owner at hown
    cases hf : db.links.find? (fun r => decide (r.shortURL = c)) with
    | none => rw [hf] at hown; simp at hown
    | some row =>
      rw [hf] at hown
      simp only [Option.map_some', Option.some.injEq] at hown
      have hmem : row ∈ db.links := List.mem_of_find?_eq_some hf
      have hc : row.shortURL = c := by simpa using List.find?_some hf
      have hin : row ∈ db.links.filter fun r => r.shortURL = c ∧ r.userID = s.userId := by
        simp [List.mem_filter, hmem, hc, hown]
      have : 0 < (db.links.filter fun r => r.shortURL = c ∧ r.userID = s.userId).length :=
        List.length_pos_of_mem hin
      omega
  have hp1 := call_reliable db hp .userId_from_shortUrl [.str c]
  have hp2 := call_reliable _ hp1 .delete_from_links [.str c, .int s.userId]
  refine ⟨{ ((db.call .userId_from_shortUrl [.str c]).1.call .delete_from_links
      [.str c, .int s.userId]).1 with
      links := db.links.filter fun r => ¬ (r.shortURL = c ∧ r.userID = s.userId) },
    ?_, reliable_of_pending _ _ hp2 rfl, rfl⟩
  unfold API.deleteURL
  rw [queryRow_owner db hp c, hown]
  simp only [scanInt, hs]
  rw [execRow_delete _ hp1 c s.userId]
  have hl : (db.call .userId_from_shortUrl [.str c]).1.links = db.links := rfl
  simp [hpos, hl]

/-- Go `deleteURL` by a signed-in session that is not the owner the store
reports, on a store that reports no error. -/
theorem deleteURL_by_other (db : DB) (hp : db.reliable) (c : String) (s : Session)
    (i : Int) (hs : s.signedIn = true) (hown : db.owner c = some i) (hne : s.userId ≠ i) :
    (InitAPI db).deleteURL s c =
      (InitAPI (db.call .userId_from_shortUrl [.str c]).1, some .Unauthorized) := by
  unfold API.deleteURL
  rw [queryRow_owner db hp c, hown]
  simp [hs, scanInt, Ne.symm hne]

/-- Go `deleteURL` of a short URL the store has no row for, by a signed-in
session of a nonzero account, on a store that reports no error. -/
theorem deleteURL_missing (db : DB) (hp : db.reliable) (c : String) (s : Session)
    (hs : s.signedIn = true) (h0 : s.userId ≠ 0) (hno : ∀ r ∈ db.links, r.shortURL ≠ c) :
    (InitAPI db).deleteURL s c =
      (InitAPI (db.call .userId_from_shortUrl [.str c]).1, some .Unauthorized) := by
  have hown : db.owner c = none := by
    unfold DB.owner
    rw [List.find?_eq_none.mpr (by simpa using hno)]
    rfl
  unfold API.deleteURL
  rw [queryRow_owner db hp c, hown]
  simp [hs, scanInt, Ne.symm h0]

/-- Go `addURL` of a new short URL within the length bounds, by a signed-in
session, on a store that reports no error: the row is appended. -/
theorem addURL_ok (db : DB) (hp : db.reliable) (s : Session) (hs : s.signedIn = true)
    (shortUrl longUrl : String) (hshort : len shortUrl = SHORT_URL_LENGTH)
    (hlong : len longUrl ≤ LONG_URL_MAX_LENGTH)
    (hnew : ∀ r ∈ db.links, r.shortURL ≠ shortUrl) :
    ∃ db1 : DB, (InitAPI db).addURL s shortUrl longUrl = (InitAPI db1, none) ∧ db1.reliable ∧
      db1.links = db.links ++ [⟨s.userId, shortUrl, longUrl⟩] := by
  have hl : ¬ len longUrl > LONG_URL_MAX_LENGTH := not_lt.mpr hlong
  have hp1 := call_reliable db hp .shortUrl_exists [.str shortUrl]
  have hp2 := call_reliable _ hp1 .add_to_links [.int s.userId, .str shortUrl, .str longUrl]
  refine ⟨{ ((db.call .shortUrl_exists [.str shortUrl]).1.call .add_to_links
      [.int s.userId, .str shortUrl, .str longUrl]).1 with
      links := db.links ++ [⟨s.userId, shortUrl, longUrl⟩] },
    ?_, reliable_of_pending _ _ hp2 rfl, rfl⟩
  unfold API.addURL
  rw [queryRow_exists_new db hp shortUrl hnew]
  simp only [scanString, hs, hshort, hl]
  rw [execRow_add _ hp1 s.userId shortUrl longUrl]
  have hlk : (db.call .shortUrl_exists [.str shortUrl]).1.links = db.links := rfl
  simp [hlk]

theorem getSession_cases (manager : Manager) (url : Url) (r : Request) (nowCheck : Time)
    (uuid : String) (nowCreate : Time) :
    (∃ k s, manager.sessions.lookup k = some s ∧
      manager.GetSession url r nowCheck uuid nowCreate = (manager, none, s)) ∨
    manager.GetSession url r nowCheck uuid nowCreate =
      ((manager.createSession url uuid nowCreate).1,
       some (manager.createSession url uuid nowCreate).2.1,
       (manager.createSession url uuid nowCreate).2.2) := by
  unfold Manager.GetSession
  cases hc : r.Cookie manager.cookieName with
  | none => right; rfl
  | some v =>
    by_cases hv : v = ""
    · right; simp only [hv, if_true]
    · simp only [hv, if_false]
      cases hl : manager.sessions.lookup (url.QueryUnescape v) with
      | none => right; rfl
      | some s =>
        by_cases hexp : nowCheck > s.expiry
        · right; simp only [if_pos hexp]
        · left; exact ⟨_, s, hl, by simp only [if_neg hexp]⟩

theorem createSession_inv (manager : Manager)
    (hm : ∀ k s, manager.sessions.lookup k = some s → s.inv)
    (url : Url) (uuid : String) (now : Time) :
    (manager.createSession url uuid now).2.2.inv ∧
    ∀ k s, (manager.createSession url uuid now).1.sessions.lookup k = some s → s.inv := by
  have hnew : (NewLowSession now uuid manager.maxLife).inv := by
    intro h; simp [NewLowSession] at h
  refine ⟨hnew, ?_⟩
  intro k s hk
  by_cases hku : k = uuid
  · subst hku
    simp only [Manager.createSession, AList.lookup_insert, Option.some.injEq] at hk
    rw [← hk]; exact hnew
  · simp only [Manager.createSession, AList.lookup_insert_ne hku] at hk
    exact hm k s hk

/-! ## The link registry requires a signed-in session -/

/-- Claim C1: for a session that is not signed in, `addURL`, `getURL` and
`deleteURL` fail with `Unauthorized` whatever their arguments, and return
the API as they got it: no statement was sent and no table changed. -/
theorem signedOut_rejected_before_store (api : API) (session : Session)
    (shortUrl longUrl target : String) (h : session.signedIn = false) :
    api.addURL session shortUrl longUrl = (api, some .Unauthorized) ∧
    api.getURL session = (api, [], some .Unauthorized) ∧
    api.deleteURL session target = (api, some .Unauthorized) := by
  simp [API.addURL, API.getURL, API.deleteURL, h]

/-- Witness of C1 on the example store with the anonymous session. -/
theorem signedOut_rejected_before_store_witness :
    (InitAPI exampleDB).addURL anonymous "abc124" "https://example.org" =
      (InitAPI exampleDB, some .Unauthorized) ∧
    (InitAPI exampleDB).getURL anonymous = (InitAPI exampleDB, [], some .Unauthorized) ∧
    (InitAPI exampleDB).deleteURL anonymous "abc123" =
      (InitAPI exampleDB, some .Unauthorized) :=
  signedOut_rejected_before_store (InitAPI exampleDB) anonymous "abc124"
    "https://example.org" "abc123" rfl

/-! ## Deletion is reserved to the owner -/

/-- Counterexample to C2 as stated: a signed-in session whose account id is 0
deletes a short URL that has no mapping, on a store that reports no error, and
`deleteURL` returns `nil` instead of `Unauthorized`. -/
theorem deleteURL_unmapped_zero_account :
    zeroSession.signedIn = true ∧ exampleDB.reliable ∧
    (∀ r ∈ exampleDB.links, r.shortURL ≠ "zzzzzz") ∧
    ((InitAPI exampleDB).deleteURL zeroSession "zzzzzz").2 = none ∧
    ((InitAPI exampleDB).deleteURL zeroSession "zzzzzz").2 ≠ some .Unauthorized := by
  decide

/-- Claim C2, amended: on a store that reports no error and reports account
`A` as the owner of short URL `c`, `deleteURL` by a signed-in session of
another account `B` fails with `Unauthorized` and leaves `links` as it was;
`deleteURL` by a signed-in session of `A` returns `nil`, and `getURL` for that
session afterwards succeeds and lists no pair with short URL `c`. `deleteURL`
of a short URL with no mapping fails with `Unauthorized` for every signed-in
session whose account id is not 0. -/
theorem deleteURL_owner_only (db : DB) (hp : db.reliable) (c : String) (A B : Int)
    (sA sB : Session) (hown : db.owner c = some A)
    (hA : sA.signedIn = true) (hAid : sA.userId = A)
    (hB : sB.signedIn = true) (hBid : sB.userId = B) (hAB : B ≠ A) :
    (((InitAPI db).deleteURL sB c).2 = some .Unauthorized ∧
      ((InitAPI db).deleteURL sB c).1.db.links = db.links) ∧
    (((InitAPI db).deleteURL sA c).2 = none ∧
      (((InitAPI db).deleteURL sA c).1.getURL sA).2.2 = none ∧
      ∀ d ∈ (((InitAPI db).deleteURL sA c).1.getURL sA).2.1, d.Short ≠ c) ∧
    ∀ (s : Session) (c0 : String), s.signedIn = true → s.userId ≠ 0 →
      (∀ r ∈ db.links, r.shortURL ≠ c0) →
      ((InitAPI db).deleteURL s c0).2 = some .Unauthorized := by
  refine ⟨?_, ?_, ?_⟩
  · rw [deleteURL_by_other db hp c sB A hB hown (by rw [hBid]; exact hAB)]
    exact ⟨rfl, rfl⟩
  · obtain ⟨db1, hdel, hp1, hlinks⟩ :=
      deleteURL_by_owner db hp c sA hA (by rw [hAid]; exact hown)
    rw [hdel]
    refine ⟨rfl, ?_⟩
    rw [getURL_ok db1 hp1 sA hA]
    refine ⟨rfl, ?_⟩
    intro d hd
    simp only [hlinks, List.mem_map, List.mem_filter] at hd
    obtain ⟨r, ⟨⟨_, hr1⟩, hr2⟩, rfl⟩ := hd
    simp only [decide_eq_true_eq] at hr1 hr2
    intro hc
    exact hr1 ⟨hc, hr2⟩
  · intro s c0 hs h0 hno
    rw [deleteURL_missing db hp c0 s hs h0 hno]

/-- Witness of C2 (amended): `abc123` belongs to account 7 in the example
store; `bob` (account 8) is refused, `alice` (account 7) deletes it, and
`alice` is refused on the unmapped `zzzzzz`. -/
theorem deleteURL_owner_only_witness :
    exampleDB.owner "abc123" = some 7 ∧
    ((InitAPI exampleDB).deleteURL bob "abc123").2 = some .Unauthorized ∧
    ((InitAPI exampleDB).deleteURL bob "abc123").1.db.links = exampleDB.links ∧
    ((InitAPI exampleDB).deleteURL alice "abc123").2 = none ∧
    (∀ d ∈ (((InitAPI exampleDB).deleteURL alice "abc123").1.getURL alice).2.1,
      d.Short ≠ "abc123") ∧
    ((InitAPI exampleDB).deleteURL alice "zzzzzz").2 = some .Unauthorized :=
  have h := deleteURL_owner_only exampleDB (by decide) "abc123" 7 8 alice bob (by decide) rfl
    rfl rfl rfl (by decide)
  ⟨by decide, h.1.1, h.1.2, h.2.1.1, h.2.1.2.2,
    h.2.2 alice "zzzzzz" rfl (by decide) (by decide)⟩

/-! ## Signing in -/

/-- Claim C3: on a store that reports no error and holds a credentials row
for `username`, `signin` with a password whose digest differs from the stored
one fails with `Unauthorized` and leaves the session as it was (a signed-in
session stays signed in); with a password whose digest equals the stored one
byte for byte it returns `nil` and the session is signed in with the `userID`
of that row, its other fields unchanged. -/
theorem signin_digest_checked (db : DB) (hp : db.reliable) (argon2Key : Argon2Key)
    (session : Session) (username password : String) (row : AuthRow)
    (hrow : db.credentials username = some row) :
    (hash argon2Key (bytesOf password) HASH_LENGTH ≠ row.password_hash →
      ((InitAPI db).signin argon2Key session username password).2 =
        (session, some .Unauthorized)) ∧
    (hash argon2Key (bytesOf password) HASH_LENGTH = row.password_hash →
      ((InitAPI db).signin argon2Key session username password).2 =
        ({ session with signedIn := true, userId := row.userID }, none)) := by
  unfold API.signin
  rw [queryRow_digest db hp username, hrow]
  constructor
  · intro hne
    simp [scanBytes, hne]
  · intro heq
    have hp1 := call_reliable db hp .passwordHash_from_username [.str username]
    have hc : DB.credentials (db.call .passwordHash_from_username [.str username]).1 username =
        some row := hrow
    simp only [scanBytes, heq]
    rw [queryRow_userId _ hp1 username, hc]
    simp [scanInt]

/-- Witness of C3: against the example store, the wrong password leaves the
signed-in `bob` as he was, and the right one signs the anonymous session in
as account 7. -/
theorem signin_digest_checked_witness :
    ((InitAPI exampleDB).signin toyKey bob "alice" "no").2 = (bob, some .Unauthorized) ∧
    ((InitAPI exampleDB).signin toyKey anonymous "alice" "pw").2 =
      (⟨"sid-0", 7, true, 100⟩, none) :=
  ⟨(signin_digest_checked exampleDB (by decide) toyKey bob "alice" "no" ⟨7, "alice", [112, 119]⟩
      (by decide)).1 (by decide),
   (signin_digest_checked exampleDB (by decide) toyKey anonymous "alice" "pw" ⟨7, "alice", [112, 119]⟩
      (by decide)).2 (by decide)⟩

/-- Claim C4: when no credentials row matches `username`, `signin` fails with
`NoSuchUser` and leaves the session as it was, whatever the store answers:
neither `sql.ErrNoRows` nor a driver error is returned. -/
theorem signin_unknown_user (db : DB) (argon2Key : Argon2Key) (session : Session)
    (username password : String) (hno : ∀ r ∈ db.users_auth, r.username ≠ username) :
    ((InitAPI db).signin argon2Key session username password).2 =
      (session, some .NoSuchUser) := by
  have h0 : db.users_auth.filter (fun r => decide (r.username = username)) = [] := by
    rw [List.filter_eq_nil_iff]
    intro a ha
    simpa using hno a ha
  unfold API.signin
  rcases hpd : db.pending with _ | ⟨_ | msg, rest⟩ <;>
    simp [API.QueryRow, InitAPI, lookup_passwordHash_from_username, Stmt.QueryRow, DB.call, hpd,
      Stmt.rows, h0, scanBytes]

/-- Witness of C4: `carol` has no row in the example store, with the store
answering and with the store failing. -/
theorem signin_unknown_user_witness :
    ((InitAPI exampleDB).signin toyKey alice "carol" "pw").2 = (alice, some .NoSuchUser) ∧
    ((InitAPI failingDB).signin toyKey alice "carol" "pw").2 = (alice, some .NoSuchUser) :=
  ⟨signin_unknown_user exampleDB toyKey alice "carol" "pw" (by decide),
   signin_unknown_user failingDB toyKey alice "carol" "pw" (by decide)⟩

/-! ## The session invariant -/

/-- Every session of `exampleManager` satisfies the session invariant. -/
theorem exampleManager_inv :
    ∀ k s, exampleManager.sessions.lookup k = some s → s.inv := by
  intro k s h
  simp only [exampleManager] at h
  by_cases hk : k = exampleSid
  · subst hk
    rw [AList.lookup_insert] at h
    cases h
    decide
  · rw [AList.lookup_insert_ne hk, AList.lookup_empty] at h
    cases h

/-- Counterexample to C5 as stated: the store holds the id 0 for `root`, and
a successful `signin` turns the anonymous session, which satisfies the
invariant, into a signed-in session with `userId = 0`, which does not. -/
theorem signin_zero_id_breaks_inv :
    anonymous.inv ∧
    ((InitAPI zeroDB).signin toyKey anonymous "root" "pw").2 =
      (⟨"sid-0", 0, true, 100⟩, none) ∧
    ¬ ((InitAPI zeroDB).signin toyKey anonymous "root" "pw").2.1.inv := by
  decide

/-- Claim C5, amended: the invariant `signedIn = true → userId ≠ 0` holds for
the session `NewLowSession` makes; `createSession`, `GetSession` and
`UpdateExpired` return a session satisfying it and leave a map all of whose
sessions satisfy it, when the map they got was so; and `signin` preserves it
on its session, whether it succeeds or fails and whatever the store answers,
provided no credentials row of the store has `userID = 0`. (`addURL`,
`getURL` and `deleteURL` read the session and never write it.) -/
theorem session_inv_preserved (manager : Manager)
    (hm : ∀ k s, manager.sessions.lookup k = some s → s.inv)
    (session : Session) (hs : session.inv)
    (db : DB) (hdb : ∀ r ∈ db.users_auth, r.userID ≠ 0)
    (url : Url) (r : Request) (nowCheck nowCreate : Time) (uuid : String) (clock : Nat → Time)
    (argon2Key : Argon2Key) (username password : String) :
    (NewLowSession nowCreate uuid manager.maxLife).inv ∧
    ((manager.createSession url uuid nowCreate).2.2.inv ∧
      ∀ k s, (manager.createSession url uuid nowCreate).1.sessions.lookup k = some s → s.inv) ∧
    ((manager.GetSession url r nowCheck uuid nowCreate).2.2.inv ∧
      ∀ k s, (manager.GetSession url r nowCheck uuid nowCreate).1.sessions.lookup k = some s →
        s.inv) ∧
    (∀ k s, (manager.UpdateExpired clock).sessions.lookup k = some s → s.inv) ∧
    ((InitAPI db).signin argon2Key session username password).2.1.inv := by
  have hcreate := createSession_inv manager hm url uuid nowCreate
  refine ⟨?_, hcreate, ?_, ?_, ?_⟩
  · intro h; simp [NewLowSession] at h
  · rcases getSession_cases manager url r nowCheck uuid nowCreate with ⟨k, s, hk, hg⟩ | hg
    · rw [hg]; exact ⟨hm k s hk, hm⟩
    · rw [hg]; exact hcreate
  · intro k s hk
    exact hm k s (sweep_lookup_some clock _ 0 _ k s hk)
  · rcases signin_session_cases db argon2Key session username password with h | ⟨row, hrow, h⟩
    · rw [h]; exact hs
    · rw [h]; intro _; exact hdb row hrow

/-- Witness of C5 (amended): the example manager and store, whose only
account has id 7, with the anonymous session signing in as `alice`. -/
theorem session_inv_preserved_witness :
    anonymous.inv ∧ (∀ r ∈ exampleDB.users_auth, r.userID ≠ 0) ∧
    (exampleManager.GetSession plainUrl exampleRequest 50 "fresh" 50).2.2.inv ∧
    (∀ k s, (exampleManager.UpdateExpired fun _ => 50).sessions.lookup k = some s → s.inv) ∧
    ((InitAPI exampleDB).signin toyKey anonymous "alice" "pw").2.1.inv :=
  have h := session_inv_preserved exampleManager exampleManager_inv anonymous (by decide)
    exampleDB (by decide) plainUrl exampleRequest 50 50 "fresh" (fun _ => 50) toyKey "alice" "pw"
  ⟨by decide, by decide, h.2.2.1.1, h.2.2.2.1, h.2.2.2.2⟩

/-! ## Resolving a session -/

/-- Counterexample to C7 as stated: a session whose expiry equals the instant
of the sweep is not removed. -/
theorem updateExpired_keeps_boundary :
    exampleManager.sessions.lookup exampleSid = some ⟨exampleSid, 7, true, 100⟩ ∧
    (exampleManager.UpdateExpired fun _ => 100).sessions.lookup exampleSid =
      some ⟨exampleSid, 7, true, 100⟩ := by
  decide

/-- Claim C7, amended: when every reading of `time.Now()` during the sweep is
`now`, the map after `UpdateExpired` holds exactly the sessions of the map
before whose `expiry` is not before `now`, with their fields unchanged: the
sessions with `expiry < now` are removed, one with `expiry = now` stays. -/
theorem updateExpired_exact (manager : Manager) (now : Time) (k : String) (s : Session) :
    (manager.UpdateExpired fun _ => now).sessions.lookup k = some s ↔
      manager.sessions.lookup k = some s ∧ now ≤ s.expiry := by
  unfold Manager.UpdateExpired
  constructor
  · intro h
    have h1 := sweep_lookup_some _ _ _ _ _ _ h
    refine ⟨h1, ?_⟩
    by_contra hlt
    have hmem : (⟨k, s⟩ : Sigma fun _ : String => Session) ∈ manager.sessions.entries :=
      AList.mem_lookup_iff.mp (by rw [h1]; rfl)
    have hgone := sweep_const_removed now _ 0 manager.sessions k s hmem (not_le.mp hlt)
    simp only at h
    rw [hgone] at h
    exact absurd h (by simp)
  · rintro ⟨h1, hle⟩
    have hkept := sweep_const_kept now manager.sessions.entries 0 manager.sessions k (by
      intro s1 hs1
      have h2 : manager.sessions.lookup k = some s1 := AList.mem_lookup_iff.mpr hs1
      rw [h1] at h2
      cases h2
      exact not_lt.mpr hle)
    simp only
    rw [hkept, h1]

/-! ## Adding a link -/

/-- Claim C8: `addURL` with a short URL whose `len` is not 6 fails with
`Unauthorized` for every session, signed in or not, and every long URL, and
returns the API as it got it: no statement was sent and no row inserted. -/
theorem addURL_short_length (api : API) (session : Session) (shortUrl longUrl : String)
    (h : len shortUrl ≠ 6) :
    api.addURL session shortUrl longUrl = (api, some .Unauthorized) := by
  unfold API.addURL
  by_cases hs : session.signedIn = false
  · simp [hs]
  · simp [hs, SHORT_URL_LENGTH, h]

/-- Witness of C8: a short URL of five bytes and one of seven, by a signed-in
session and by the anonymous one. -/
theorem addURL_short_length_witness :
    (InitAPI exampleDB).addURL alice "abc12" "https://example.org" =
      (InitAPI exampleDB, some .Unauthorized) ∧
    (InitAPI exampleDB).addURL anonymous "abc1234" "https://example.org" =
      (InitAPI exampleDB, some .Unauthorized) :=
  ⟨addURL_short_length (InitAPI exampleDB) alice "abc12" "https://example.org" (by decide),
   addURL_short_length (InitAPI exampleDB) anonymous "abc1234" "https://example.org"
     (by decide)⟩

/-- Counterexample to C9 as stated: a signed-in session, a short URL of
length 6 and a long URL of length 1025; the error of `addURL` is
`Unauthorized`, not `BadRequest`, and the status is 401, not 400. -/
theorem addURL_long_url_not_badRequest :
    alice.signedIn = true ∧ len "abc124" = 6 ∧ len (filler 1025) > 1024 ∧
    ((InitAPI exampleDB).addURL alice "abc124" (filler 1025)).2 = some .Unauthorized ∧
    ((InitAPI exampleDB).addURL alice "abc124" (filler 1025)).2 ≠ some .BadRequest ∧
    addStatus ((InitAPI exampleDB).addURL alice "abc124" (filler 1025)).2 ≠ 400 := by
  have hl : len (filler 1025) = 1025 := len_filler 1025
  have h : (InitAPI exampleDB).addURL alice "abc124" (filler 1025) =
      (InitAPI exampleDB, some .Unauthorized) := by
    have h6 : len "abc124" = 6 := by decide
    simp [API.addURL, alice, h6, SHORT_URL_LENGTH, LONG_URL_MAX_LENGTH, hl]
  rw [h, hl]
  decide

/-- Claim C9, amended: for a signed-in session, a short URL of length 6 and a
long URL with `len` above 1024, `addURL` fails with `Unauthorized`, which
`ServeHTTP` answers with status 401, and no statement is sent. -/
theorem addURL_long_url_unauthorized (api : API) (session : Session)
    (hs : session.signedIn = true) (shortUrl longUrl : String) (hshort : len shortUrl = 6)
    (hlong : len longUrl > 1024) :
    api.addURL session shortUrl longUrl = (api, some .Unauthorized) ∧
    addStatus (api.addURL session shortUrl longUrl).2 = 401 := by
  have h : api.addURL session shortUrl longUrl = (api, some .Unauthorized) := by
    simp [API.addURL, hs, hshort, SHORT_URL_LENGTH, LONG_URL_MAX_LENGTH, hlong]
  rw [h]
  exact ⟨rfl, rfl⟩

/-- Witness of C9 (amended): a long URL of 1025 bytes. -/
theorem addURL_long_url_unauthorized_witness :
    (InitAPI exampleDB).addURL alice "abc124" (filler 1025) =
      (InitAPI exampleDB, some .Unauthorized) ∧
    addStatus ((InitAPI exampleDB).addURL alice "abc124" (filler 1025)).2 = 401 :=
  addURL_long_url_unauthorized (InitAPI exampleDB) alice rfl "abc124" (filler 1025) (by decide)
    (by rw [len_filler]; decide)

/-- Claim C10: on a store that reports no error, for a signed-in session and
a short URL of length 6 with no mapping yet: `addURL` with a long URL of
length 1024 returns `nil`, `links` afterwards is the table before plus the row
of the session's `userId`, the short URL and the long URL, and `getURL` for the
session then succeeds and lists the pair; `addURL` with a long URL of length
1025 returns an error and leaves the store as it was. -/
theorem addURL_length_boundary (db : DB) (hp : db.reliable) (session : Session)
    (hs : session.signedIn = true) (shortUrl : String) (hshort : len shortUrl = 6)
    (hnew : ∀ r ∈ db.links, r.shortURL ≠ shortUrl)
    (longUrl tooLong : String) (h1024 : len longUrl = 1024) (h1025 : len tooLong = 1025) :
    ((InitAPI db).addURL session shortUrl longUrl).2 = none ∧
    ((InitAPI db).addURL session shortUrl longUrl).1.db.links =
      db.links ++ [⟨session.userId, shortUrl, longUrl⟩] ∧
    (((InitAPI db).addURL session shortUrl longUrl).1.getURL session).2.2 = none ∧
    ⟨shortUrl, longUrl⟩ ∈ (((InitAPI db).addURL session shortUrl longUrl).1.getURL session).2.1 ∧
    (InitAPI db).addURL session shortUrl tooLong = (InitAPI db, some .Unauthorized) := by
  obtain ⟨db1, hadd, hp1, hlinks⟩ :=
    addURL_ok db hp session hs shortUrl longUrl hshort (by rw [h1024]; decide) hnew
  rw [hadd]
  refine ⟨rfl, hlinks, ?_, ?_, ?_⟩
  · rw [getURL_ok db1 hp1 session hs]
  · rw [getURL_ok db1 hp1 session hs]
    simp [hlinks]
  · simp [API.addURL, hs, hshort, SHORT_URL_LENGTH, LONG_URL_MAX_LENGTH, h1025]

/-- Witness of C10: `alice` adds `abc124` with long URLs of 1024 and of 1025
bytes to the example store. -/
theorem addURL_length_boundary_witness :
    ((InitAPI exampleDB).addURL alice "abc124" (filler 1024)).2 = none ∧
    ((InitAPI exampleDB).addURL alice "abc124" (filler 1024)).1.db.links =
      exampleDB.links ++ [⟨7, "abc124", filler 1024⟩] ∧
    ⟨"abc124", filler 1024⟩ ∈
      (((InitAPI exampleDB).addURL alice "abc124" (filler 1024)).1.getURL alice).2.1 ∧
    (InitAPI exampleDB).addURL alice "abc124" (filler 1025) =
      (InitAPI exampleDB, some .Unauthorized) :=
  have h := addURL_length_boundary exampleDB (by decide) alice rfl "abc124" (by decide) (by decide)
    (filler 1024) (filler 1025) (len_filler 1024) (len_filler 1025)
  ⟨h.1, h.2.1, h.2.2.2.1, h.2.2.2.2⟩

/-! ## Adding an existing short URL -/

theorem toString_one : toString (1 : Int) = "1" := by decide

/-- A row satisfying the test puts the filtered list in the form head and
tail. -/
theorem filter_cons_of_mem {α : Type} (p : α → Bool) (a : α) (l : List α) (ha : a ∈ l)
    (hp : p a = true) : ∃ x t, l.filter p = x :: t := by
  cases hf : l.filter p with
  | nil =>
    have : a ∈ l.filter p := List.mem_filter.mpr ⟨ha, hp⟩
    rw [hf] at this
    cases this
  | cons x t => exact ⟨x, t, rfl⟩

/-- Claim C11: for a signed-in session, a short URL of length 6 that already
has a row in `links` (whoever owns it) and a long URL of length at most 1024,
`addURL` returns an error and leaves the three tables as they were, whatever
the store answers: the existing row keeps its long URL and its owner and no
second row for the short URL appears. On a store that reports no error, the
error is `BadRequest`, which `ServeHTTP` answers with status 400. -/
theorem addURL_existing_rejected (db : DB) (session : Session)
    (hs : session.signedIn = true) (shortUrl longUrl : String) (hshort : len shortUrl = 6)
    (hlong : len longUrl ≤ 1024) (row : LinkRow) (hrow : row ∈ db.links)
    (hcode : row.shortURL = shortUrl) :
    (db.reliable →
      ((InitAPI db).addURL session shortUrl longUrl).2 = some .BadRequest ∧
      addStatus ((InitAPI db).addURL session shortUrl longUrl).2 = 400) ∧
    ((InitAPI db).addURL session shortUrl longUrl).2 ≠ none ∧
    ((InitAPI db).addURL session shortUrl longUrl).1.db.links = db.links ∧
    ((InitAPI db).addURL session shortUrl longUrl).1.db.users_auth = db.users_auth ∧
    ((InitAPI db).addURL session shortUrl longUrl).1.db.users_data = db.users_data := by
  obtain ⟨x, t, hf⟩ := filter_cons_of_mem (fun r : LinkRow => decide (r.shortURL = shortUrl))
    row db.links hrow (by simpa using hcode)
  have hl : ¬ len longUrl > LONG_URL_MAX_LENGTH := not_lt.mpr hlong
  rcases hpd : db.pending with _ | ⟨_ | msg, rest⟩
  · simp [API.addURL, hs, hshort, SHORT_URL_LENGTH, hl, API.QueryRow, InitAPI,
      lookup_shortUrl_exists, Stmt.QueryRow, DB.call, hpd, Stmt.rows, hf, scanString,
      toString_one, addStatus]
  · simp [API.addURL, hs, hshort, SHORT_URL_LENGTH, hl, API.QueryRow, InitAPI,
      lookup_shortUrl_exists, Stmt.QueryRow, DB.call, hpd, Stmt.rows, hf, scanString,
      toString_one, addStatus]
  · have hnr : ¬ db.reliable := by
      intro hp
      have := hp (some msg) (by rw [hpd]; exact List.mem_cons_self _ _)
      cases this
    simp [API.addURL, hs, hshort, SHORT_URL_LENGTH, hl, API.QueryRow, InitAPI,
      lookup_shortUrl_exists, Stmt.QueryRow, DB.call, hpd, scanString, hnr]

/-- Witness of C11: `bob` adds `abc123`, which `alice` owns in the example
store, with the store answering and with the store failing. -/
theorem addURL_existing_rejected_witness :
    ((InitAPI exampleDB).addURL bob "abc123" "https://example.org").2 = some .BadRequest ∧
    ((InitAPI exampleDB).addURL bob "abc123" "https://example.org").1.db.links =
      [⟨7, "abc123", "https://example.com"⟩] ∧
    ((InitAPI failingDB).addURL bob "abc123" "https://example.org").2 ≠ none ∧
    ((InitAPI failingDB).addURL bob "abc123" "https://example.org").1.db.links =
      [⟨7, "abc123", "https://example.com"⟩] :=
  have h := addURL_existing_rejected exampleDB bob rfl "abc123" "https://example.org"
    (by decide) (by decide) ⟨7, "abc123", "https://example.com"⟩ (by decide) rfl
  have hf := addURL_existing_rejected failingDB bob rfl "abc123" "https://example.org"
    (by decide) (by decide) ⟨7, "abc123", "https://example.com"⟩ (by decide) rfl
  ⟨(h.1 (by decide)).1, h.2.2.1, hf.2.1, hf.2.2.1⟩

/-! ## Signing up with a taken username -/

theorem lookup_username_exists :
    sqlStmtsStr.lookup "username_exists" = some .username_exists := by decide

/-- Counterexample to C12 as stated: `alice` has a credentials row in the
example store and all five fields are filled, yet the error of `signup` is
`Unauthorized`, the kind a session that is not signed in gets from `addURL`,
and `ServeHTTP` answers it with the status it gives `InvalidInput`. -/
theorem signup_taken_is_unauthorized :
    exampleDB.credentials "alice" = some ⟨7, "alice", [112, 119]⟩ ∧ exampleDB.reliable ∧
    ((InitAPI exampleDB).signup toyKey "Alice" "30" "2000-01-01" "alice" "pw1").2 =
      some .Unauthorized ∧
    ((InitAPI exampleDB).signup toyKey "Alice" "30" "2000-01-01" "alice" "pw1").2 =
      ((InitAPI exampleDB).addURL anonymous "abc124" "https://example.org").2 ∧
    signupStatus ((InitAPI exampleDB).signup toyKey "Alice" "30" "2000-01-01" "alice" "pw1").2 =
      signupStatus (some .InvalidInput) := by
  decide

/-- Claim C12, amended: when all five fields are non-empty and a credentials
row already exists for `username`, `signup` returns an error and leaves
`users_auth` and `users_data` as they were, whatever the store answers. On a
store that reports no error, the error is `Unauthorized` (there is no kind
of its own for a taken username), which `ServeHTTP` answers with status
401. -/
theorem signup_existing_username (db : DB) (argon2Key : Argon2Key)
    (name age born username password : String)
    (hname : name ≠ "") (hage : age ≠ "") (hborn : born ≠ "") (huser : username ≠ "")
    (hpass : password ≠ "") (row : AuthRow) (hrow : row ∈ db.users_auth)
    (htaken : row.username = username) :
    (db.reliable →
      ((InitAPI db).signup argon2Key name age born username password).2 = some .Unauthorized ∧
      signupStatus ((InitAPI db).signup argon2Key name age born username password).2 = 401) ∧
    ((InitAPI db).signup argon2Key name age born username password).2 ≠ none ∧
    ((InitAPI db).signup argon2Key name age born username password).1.db.users_auth =
      db.users_auth ∧
    ((InitAPI db).signup argon2Key name age born username password).1.db.users_data =
      db.users_data := by
  obtain ⟨x, t, hf⟩ := filter_cons_of_mem (fun r : AuthRow => decide (r.username = username))
    row db.users_auth hrow (by simpa using htaken)
  rcases hpd : db.pending with _ | ⟨_ | msg, rest⟩
  · simp [API.signup, hname, hage, hborn, huser, hpass, API.QueryRow, InitAPI,
      lookup_username_exists, Stmt.QueryRow, DB.call, hpd, Stmt.rows, hf, scanString,
      toString_one, signupStatus]
  · simp [API.signup, hname, hage, hborn, huser, hpass, API.QueryRow, InitAPI,
      lookup_username_exists, Stmt.QueryRow, DB.call, hpd, Stmt.rows, hf, scanString,
      toString_one, signupStatus]
  · have hnr : ¬ db.reliable := by
      intro hp
      have := hp (some msg) (by rw [hpd]; exact List.mem_cons_self _ _)
      cases this
    simp [API.signup, hname, hage, hborn, huser, hpass, API.QueryRow, InitAPI,
      lookup_username_exists, Stmt.QueryRow, DB.call, hpd, scanString, hnr]

/-- Witness of C12 (amended): signing `alice` up again in the example store,
with the store answering and with the store failing. -/
theorem signup_existing_username_witness :
    ((InitAPI exampleDB).signup toyKey "Alice" "30" "2000-01-01" "alice" "pw1").2 =
      some .Unauthorized ∧
    ((InitAPI exampleDB).signup toyKey "Alice" "30" "2000-01-01" "alice" "pw1").1.db.users_auth =
      [⟨7, "alice", [112, 119]⟩] ∧
    ((InitAPI failingDB).signup toyKey "Alice" "30" "2000-01-01" "alice" "pw1").2 ≠ none ∧
    ((InitAPI failingDB).signup toyKey "Alice" "30" "2000-01-01" "alice" "pw1").1.db.users_auth =
      [⟨7, "alice", [112, 119]⟩] :=
  have h := signup_existing_username exampleDB toyKey "Alice" "30" "2000-01-01" "alice" "pw1"
    (by decide) (by decide) (by decide) (by decide) (by decide) ⟨7, "alice", [112, 119]⟩
    (by decide) rfl
  have hf := signup_existing_username failingDB toyKey "Alice" "30" "2000-01-01" "alice" "pw1"
    (by decide) (by decide) (by decide) (by decide) (by decide) ⟨7, "alice", [112, 119]⟩
    (by decide) rfl
  ⟨(h.1 (by decide)).1, h.2.2.1, hf.2.1, hf.2.2.1⟩

/-! ## Deleting zero rows -/

/-- Claim C13, as the code has it: for a signed-in session and a short URL
that pass the ownership test of `deleteURL`, when the delete statement
reports zero affected rows and no error, `deleteURL` returns `nil`: the
branch that logs the failure returns `err`, which is `nil` there. -/
theorem deleteURL_zero_rows_nil (api : API) (session : Session) (shortUrl : String)
    (hs : session.signedIn = true)
    (hcheck : (scanInt (api.QueryRow "userId_from_shortUrl" [.str shortUrl]).2 0).2 =
      session.userId)
    (hzero : ((api.QueryRow "userId_from_shortUrl" [.str shortUrl]).1.ExecRow
      "delete_from_links" [.str shortUrl, .int session.userId]).2 = (0, none)) :
    (api.deleteURL session shortUrl).2 = none := by
  unfold API.deleteURL
  rcases hq : api.QueryRow "userId_from_shortUrl" [.str shortUrl] with ⟨api1, r⟩
  rw [hq] at hcheck hzero
  rcases hsc : scanInt r 0 with ⟨e, userId⟩
  rw [hsc] at hcheck
  simp only at hcheck hzero
  rcases hx : api1.ExecRow "delete_from_links" [.str shortUrl, .int session.userId] with
    ⟨api2, affected, err2⟩
  rw [hx] at hzero
  simp only [Prod.mk.injEq] at hzero
  simp [hs, hsc, hx, hcheck, hzero.1, hzero.2]

/-- Witness of C13: the store holds the id 0 for `root`; the session `signin`
elevates for `root` deletes the unmapped `zzzzzz`, the delete statement
affects zero rows, and `deleteURL` returns `nil`. -/
theorem deleteURL_zero_rows_nil_witness :
    ((InitAPI zeroDB).signin toyKey anonymous "root" "pw").2 =
      (⟨"sid-0", 0, true, 100⟩, none) ∧
    ((InitAPI zeroDB).ExecRow "delete_from_links" [.str "zzzzzz", .int 0]).2 = (0, none) ∧
    ((InitAPI zeroDB).deleteURL ⟨"sid-0", 0, true, 100⟩ "zzzzzz").2 = none :=
  ⟨by decide, by decide,
   deleteURL_zero_rows_nil (InitAPI zeroDB) ⟨"sid-0", 0, true, 100⟩ "zzzzzz" rfl
     (by decide) (by decide)⟩

end Shr
